import Mathlib

/-!
Shallow embedding of the `item_compator` repository: two clause comparators
(`light_sim.py` and `pipeline_sim.py`) and the standalone similarity helpers
(`simple_sim.py`).  Texts are modelled as `List Char`; Python floats are
modelled as exact rationals (`ℚ`), except for the dense-embedding cosine
similarity which involves square roots and is modelled over `ℝ`.
External collaborators (the `jieba` segmenter, the `pypinyin` romanizer and
the sentence-embedding model) are parameters of the definitions that use
them, as functions of the appropriate type.
-/

namespace ItemCompator

/-- Characters matched by Python's regex `\s` on `str` inputs (used by
`re.sub(r'\s+', '', text)`): ASCII whitespace, the information separators,
NEL, NBSP and the Unicode space characters. -/
def whitespaceChars : List Char :=
  ['\x09', '\x0a', '\x0b', '\x0c', '\x0d', '\x1c', '\x1d', '\x1e', '\x1f',
   ' ', '\x85', '\xa0', '\u1680', '\u2000', '\u2001', '\u2002', '\u2003',
   '\u2004', '\u2005', '\u2006', '\u2007', '\u2008', '\u2009', '\u200a',
   '\u2028', '\u2029', '\u202f', '\u205f', '\u3000']

/-- Step 1 of `LightweightClauseComparator.preprocess`
(`light_sim.py` line 26): `re.sub(r'\s+', '', text)` deletes every
whitespace character. -/
def removeWhitespace (t : List Char) : List Char :=
  t.filter (fun c => !whitespaceChars.contains c)

/-- Python `str.replace` specialised to a single-character pattern: every
occurrence of `c` is replaced by the string `r`. -/
def replaceChar (c : Char) (r : List Char) (t : List Char) : List Char :=
  t.flatMap (fun a => if a = c then r else [a])

/-- The `number_map` dictionary of `light_sim.py` lines 16-21, in its
insertion (= iteration) order. -/
def number_map : List (Char × List Char) :=
  [('一', ['1']), ('二', ['2']), ('三', ['3']), ('四', ['4']), ('五', ['5']),
   ('六', ['6']), ('七', ['7']), ('八', ['8']), ('九', ['9']), ('十', ['1', '0']),
   ('壹', ['1']), ('贰', ['2']), ('叁', ['3']), ('肆', ['4']), ('伍', ['5']),
   ('陆', ['6']), ('柒', ['7']), ('捌', ['8']), ('玖', ['9']), ('拾', ['1', '0'])]

/-- Step 2 of `LightweightClauseComparator.preprocess` (lines 29-30): the
loop `for cn_num, arab_num in self.number_map.items(): text =
text.replace(cn_num, arab_num)`. -/
def numberNormalize (t : List Char) : List Char :=
  number_map.foldl (fun s p => replaceChar p.1 p.2 s) t

/-- Step 3 of `LightweightClauseComparator.preprocess` (line 33):
`text.replace('（', '(').replace('）', ')')`. -/
def parenNormalize (t : List Char) : List Char :=
  replaceChar '）' [')'] (replaceChar '（' ['('] t)

/-- Embedding of `LightweightClauseComparator.preprocess` (`light_sim.py` lines 23-35):
whitespace removal, then numeral normalization, then bracket
normalization. -/
def preprocess (t : List Char) : List Char :=
  parenNormalize (numberNormalize (removeWhitespace t))

/-- The punctuation characters of `self.punctuation` (`light_sim.py` line
10 and `pipeline_sim.py` line 14; the two adjacent ASCII apostrophes in the
source close and reopen the literal, so the evaluated string is the
concatenation below and holds no apostrophe). -/
def punctuationChars : List Char :=
  ['，', '。', '！', '？', '；', '：', '"', '"', '（', '）', '【', '】', '《', '》', '、']

/-- Embedding of `remove_punctuation` (`light_sim.py` lines 37-39): keep exactly the
characters not in the punctuation set, in order. -/
def remove_punctuation (t : List Char) : List Char :=
  t.filter (fun c => !punctuationChars.contains c)

/-- Python `str.strip()` with no argument: drop leading and trailing
whitespace characters. -/
def pyStrip (t : List Char) : List Char :=
  ((t.dropWhile (fun c => whitespaceChars.contains c)).reverse.dropWhile
    (fun c => whitespaceChars.contains c)).reverse

/-- Embedding of `ClauseComparator.preprocess` (`pipeline_sim.py` lines 19-26):
`text.strip()`, then `''.join(char.strip() for char in text if
char.strip())` (which keeps exactly the non-whitespace characters), then
`re.sub(r'\s+', '', text)`.  No numeral or bracket normalization is
performed in this variant. -/
def pipelinePreprocess (t : List Char) : List Char :=
  removeWhitespace
    ((pyStrip t).flatMap
      (fun c => if whitespaceChars.contains c then [] else [c]))

section SequenceMatcher

variable {α : Type} [DecidableEq α]

/-- Length of the longest common prefix of two lists. -/
def commonPrefixLen : List α → List α → Nat
  | a :: as, b :: bs => if a = b then commonPrefixLen as bs + 1 else 0
  | _, _ => 0

/-- Embedding of `difflib.SequenceMatcher.find_longest_match` over the whole
sequences, with no junk elements (the `autojunk` heuristic of `difflib` only
affects sequences of length at least 200): among all triples `(i, j, k)`
with `a[i:i+k] == b[j:j+k]` and `k` maximal, the one with the smallest `i`
and, among those, the smallest `j`. -/
def find_longest_match (a b : List α) : Nat × Nat × Nat :=
  (List.range a.length).foldl (fun best i =>
    (List.range b.length).foldl (fun best j =>
      if best.2.2 < commonPrefixLen (a.drop i) (b.drop j) then
        (i, j, commonPrefixLen (a.drop i) (b.drop j))
      else best) best) (0, 0, 0)

lemma commonPrefixLen_le_left : ∀ (a b : List α), commonPrefixLen a b ≤ a.length := by
  intro a
  induction a with
  | nil => intro b; cases b <;> simp [commonPrefixLen]
  | cons x xs ih =>
    intro b
    cases b with
    | nil => simp [commonPrefixLen]
    | cons y ys =>
      simp only [commonPrefixLen, List.length_cons]
      split
      · have := ih ys; omega
      · omega

lemma commonPrefixLen_le_right : ∀ (a b : List α), commonPrefixLen a b ≤ b.length := by
  intro a
  induction a with
  | nil => intro b; cases b <;> simp [commonPrefixLen]
  | cons x xs ih =>
    intro b
    cases b with
    | nil => simp [commonPrefixLen]
    | cons y ys =>
      simp only [commonPrefixLen, List.length_cons]
      split
      · have := ih ys; omega
      · omega

lemma foldl_preserve {β γ : Type} {I : γ → Prop} (f : γ → β → γ)
    (hf : ∀ s x, I s → I (f s x)) :
    ∀ (l : List β) (s : γ), I s → I (l.foldl f s) := by
  intro l
  induction l with
  | nil => intro s h; exact h
  | cons x xs ih => intro s h; exact ih _ (hf s x h)

lemma find_longest_match_le (a b : List α) :
    (find_longest_match a b).1 + (find_longest_match a b).2.2 ≤ a.length ∧
    (find_longest_match a b).2.1 + (find_longest_match a b).2.2 ≤ b.length := by
  unfold find_longest_match
  apply foldl_preserve
    (I := fun p : Nat × Nat × Nat => p.1 + p.2.2 ≤ a.length ∧ p.2.1 + p.2.2 ≤ b.length)
  · intro s i hs
    apply foldl_preserve
      (I := fun p : Nat × Nat × Nat => p.1 + p.2.2 ≤ a.length ∧ p.2.1 + p.2.2 ≤ b.length)
    · intro s' j hs'
      dsimp only
      split
      · case isTrue h =>
          constructor
          · show i + commonPrefixLen (a.drop i) (b.drop j) ≤ a.length
            have h1 := commonPrefixLen_le_left (a.drop i) (b.drop j)
            rw [List.length_drop] at h1
            omega
          · show j + commonPrefixLen (a.drop i) (b.drop j) ≤ b.length
            have h1 := commonPrefixLen_le_right (a.drop i) (b.drop j)
            rw [List.length_drop] at h1
            omega
      · exact hs'
    · exact hs
  · simp

/-- Fuelled form of the matching-block recursion of
`difflib.SequenceMatcher.get_matching_blocks`: take the longest matching
block, then recurse on the pieces to its left and to its right, summing the
block sizes.  Each recursive call strictly decreases the combined length,
so any fuel of at least `a.length + b.length` computes the recursion in
full; the fuel only makes the definition structurally recursive. -/
def matchingSizeF : Nat → List α → List α → Nat
  | 0, _, _ => 0
  | fuel + 1, a, b =>
    if (find_longest_match a b).2.2 = 0 then 0
    else
      (find_longest_match a b).2.2
        + matchingSizeF fuel (a.take (find_longest_match a b).1)
            (b.take (find_longest_match a b).2.1)
        + matchingSizeF fuel
            (a.drop ((find_longest_match a b).1 + (find_longest_match a b).2.2))
            (b.drop ((find_longest_match a b).2.1 + (find_longest_match a b).2.2))

/-- Total size of the matching blocks of `difflib.SequenceMatcher`: the
value named `matches` in `SequenceMatcher.ratio`. -/
def matchingSize (a b : List α) : Nat :=
  matchingSizeF (a.length + b.length) a b

/-- Embedding of `difflib.SequenceMatcher.ratio`
(`_calculate_ratio(matches, length)`): `2.0 * matches / length` when
`length` is nonzero, and `1.0` for two empty sequences. -/
def ratioScore (a b : List α) : ℚ :=
  if a.length + b.length = 0 then 1
  else 2 * matchingSize a b / (a.length + b.length)

lemma matchingSizeF_le :
    ∀ (fuel : Nat) (a b : List α),
      matchingSizeF fuel a b ≤ a.length ∧ matchingSizeF fuel a b ≤ b.length := by
  intro fuel
  induction fuel with
  | zero => intro a b; simp [matchingSizeF]
  | succ fuel ih =>
    intro a b
    rw [matchingSizeF]
    split
    · simp
    · have hle := find_longest_match_le a b
      have h1 := ih (a.take (find_longest_match a b).1)
        (b.take (find_longest_match a b).2.1)
      have h2 := ih
        (a.drop ((find_longest_match a b).1 + (find_longest_match a b).2.2))
        (b.drop ((find_longest_match a b).2.1 + (find_longest_match a b).2.2))
      simp only [List.length_take, List.length_drop] at h1 h2
      omega

lemma matchingSize_le (a b : List α) :
    matchingSize a b ≤ a.length ∧ matchingSize a b ≤ b.length :=
  matchingSizeF_le (a.length + b.length) a b

lemma ratioScore_nonneg (a b : List α) : 0 ≤ ratioScore a b := by
  unfold ratioScore
  split
  · norm_num
  · apply div_nonneg <;> positivity

lemma ratioScore_le_one (a b : List α) : ratioScore a b ≤ 1 := by
  unfold ratioScore
  split
  · norm_num
  · case isFalse h =>
      have hm := matchingSize_le a b
      have hpos : (0 : ℚ) < (a.length : ℚ) + (b.length : ℚ) := by
        have : 0 < a.length + b.length := Nat.pos_of_ne_zero h
        exact_mod_cast this
      rw [div_le_one hpos]
      have : (2 * matchingSize a b : ℚ) ≤ ((a.length : ℚ) + b.length) := by
        have h2 : 2 * matchingSize a b ≤ a.length + b.length := by omega
        exact_mod_cast h2
      linarith

end SequenceMatcher

/-- The stopword list of `light_sim.py` line 13 (each stopword is a
one-character token). -/
def stopwords : List (List Char) :=
  [['的'], ['了'], ['且'], ['与'], ['和'], ['或'], ['由'], ['从'], ['到'],
   ['对'], ['该'], ['此']]

/-- Embedding of `LightweightClauseComparator.get_words_similarity` (`light_sim.py`
lines 41-61).  The external `jieba.cut` segmenter is the parameter `cut`.
Python's `Counter` is a multiset of tokens and `set(keys) & set(keys)` is a
finite-set intersection; `sum(counterX.values())` is the token count
`wordsX.length`. -/
def get_words_similarity (cut : List Char → List (List Char))
    (text1 text2 : List Char) : ℚ :=
  let words1 := (cut text1).filter (fun w => !stopwords.contains w)
  let words2 := (cut text2).filter (fun w => !stopwords.contains w)
  let common_words := (words1 : Multiset (List Char)).toFinset ∩
    (words2 : Multiset (List Char)).toFinset
  if common_words = ∅ then 0
  else
    ((∑ w in common_words,
        min ((words1 : Multiset (List Char)).count w)
          ((words2 : Multiset (List Char)).count w) : ℕ) : ℚ)
      / (max words1.length words2.length : ℕ)

/-- Embedding of `LightweightClauseComparator.get_char_similarity` (`light_sim.py`
lines 63-65): `SequenceMatcher(None, text1, text2).ratio()`. -/
def get_char_similarity (text1 text2 : List Char) : ℚ :=
  ratioScore text1 text2

/-- Embedding of `LightweightClauseComparator.get_pinyin_similarity` (`light_sim.py`
lines 67-71): the matching-block ratio over the two `lazy_pinyin` syllable
lists, each syllable being one atomic element of the compared sequences.
The external `pypinyin.lazy_pinyin` is the parameter `py`. -/
def get_pinyin_similarity (py : List Char → List (List Char))
    (text1 text2 : List Char) : ℚ :=
  ratioScore (py text1) (py text2)

/-- Python `' '.join(...)` over a list of strings. -/
def joinSpace (ws : List (List Char)) : List Char :=
  List.intercalate [' '] ws

/-- Embedding of `ClauseComparator.get_pinyin_similarity` (`pipeline_sim.py` lines
44-48): the matching-block ratio over the two space-joined romanizations,
compared character by character. -/
def pipeline_get_pinyin_similarity (py : List Char → List (List Char))
    (text1 text2 : List Char) : ℚ :=
  ratioScore (joinSpace (py text1)) (joinSpace (py text2))

/-- Match reason of the lightweight comparator: the strings `"完全匹配"`
(exact match) and `"仅标点符号差异"` (punctuation-only difference), or the
details dictionary holding the three formatted signal values
(`light_sim.py` lines 103-107; the `.3f` formatting is dropped and the
exact values retained). -/
inductive Reason where
  | exactMatch : Reason
  | punctuationOnly : Reason
  | weightedDetails (wordsSim charSim pinyinSim : ℚ) : Reason
  deriving DecidableEq

/-- The `(bool, float, reason)` tuple returned by
`LightweightClauseComparator.is_consistent`. -/
structure CompareResult where
  verdict : Bool
  score : ℚ
  reason : Reason
  deriving DecidableEq

/-- The weighted fusion of `light_sim.py` lines 96-100:
`words_sim * 0.5 + char_sim * 0.3 + pinyin_sim * 0.2` (the float literals
`0.5`, `0.3`, `0.2` are modelled by the exact rationals they denote in the
source text). -/
def weightedSim (cut py : List Char → List (List Char))
    (na nb : List Char) : ℚ :=
  get_words_similarity cut na nb * (1/2)
    + get_char_similarity na nb * (3/10)
    + get_pinyin_similarity py na nb * (1/5)

/-- Embedding of `LightweightClauseComparator.is_consistent` (`light_sim.py` lines
73-112): preprocess both clauses; return `(True, 1.0, 完全匹配)` on exact
equality; strip punctuation and return `(True, 0.99, 仅标点符号差异)` on
equality; otherwise compute the three signals on the stripped texts, fuse
them, and compare with the threshold (whose default at the call site is
`0.9`). -/
def is_consistent (cut py : List Char → List (List Char))
    (clause_a clause_b : List Char) (threshold : ℚ) : CompareResult :=
  if preprocess clause_a = preprocess clause_b then
    ⟨true, 1, Reason.exactMatch⟩
  else if remove_punctuation (preprocess clause_a)
      = remove_punctuation (preprocess clause_b) then
    ⟨true, 99/100, Reason.punctuationOnly⟩
  else
    ⟨decide (threshold ≤ weightedSim cut py (remove_punctuation (preprocess clause_a))
        (remove_punctuation (preprocess clause_b))),
     weightedSim cut py (remove_punctuation (preprocess clause_a))
        (remove_punctuation (preprocess clause_b)),
     Reason.weightedDetails
       (get_words_similarity cut (remove_punctuation (preprocess clause_a))
         (remove_punctuation (preprocess clause_b)))
       (get_char_similarity (remove_punctuation (preprocess clause_a))
         (remove_punctuation (preprocess clause_b)))
       (get_pinyin_similarity py (remove_punctuation (preprocess clause_a))
         (remove_punctuation (preprocess clause_b)))⟩

/-- Scalar product of two embedding vectors (`np.dot`). -/
def dotProd (u v : List ℚ) : ℚ :=
  (List.zipWith (fun x y => x * y) u v).sum

/-- Cosine similarity of two embedding vectors, as computed by
`ClauseComparator.get_semantic_similarity` (`pipeline_sim.py` lines
32-38): `np.dot(e0, e1) / (np.linalg.norm(e0) * np.linalg.norm(e1))`,
where `np.linalg.norm` is the square root of the sum of squares. -/
noncomputable def cosineSimilarity (u v : List ℚ) : ℝ :=
  (dotProd u v : ℝ) / (Real.sqrt (dotProd u u) * Real.sqrt (dotProd v v))

/-- Embedding of `ClauseComparator.get_semantic_similarity`, with the external
sentence-embedding model as the parameter `encode`. -/
noncomputable def get_semantic_similarity (encode : List Char → List ℚ)
    (text1 text2 : List Char) : ℝ :=
  cosineSimilarity (encode text1) (encode text2)

/-- Match reason of the pipeline comparator: the strings `"完全匹配"`,
`"标点符号差异"`, and the two formatted stage-3 strings
(`综合相似度: ...` when consistent, `相似度不足: ...` when not), modelled
by the flag `consistent` plus the exact score. -/
inductive PipelineReason where
  | exactMatch : PipelineReason
  | punctuationOnly : PipelineReason
  | weightedScore (consistent : Bool) (sim : ℝ) : PipelineReason

/-- The `(bool, float, reason)` tuple returned by
`ClauseComparator.is_consistent`. -/
structure PipelineResult where
  verdict : Bool
  score : ℝ
  reason : PipelineReason

/-- The weighted fusion of `pipeline_sim.py` lines 72-76:
`semantic_sim * 0.5 + char_sim * 0.3 + pinyin_sim * 0.2`, the semantic
signal computed on the preprocessed texts and the other two on the
punctuation-stripped texts. -/
noncomputable def pipelineWeightedSim (encode : List Char → List ℚ)
    (py : List Char → List (List Char)) (ca cb : List Char) : ℝ :=
  get_semantic_similarity encode ca cb * (1/2)
    + (get_char_similarity (remove_punctuation ca) (remove_punctuation cb) : ℝ) * (3/10)
    + (pipeline_get_pinyin_similarity py (remove_punctuation ca)
        (remove_punctuation cb) : ℝ) * (1/5)

/-- Embedding of `ClauseComparator.is_consistent` (`pipeline_sim.py` lines 50-84): the
same two exact-match stages over this variant's preprocess, then the
weighted fusion of semantic, character and pinyin similarities. -/
noncomputable def pipeline_is_consistent (encode : List Char → List ℚ)
    (py : List Char → List (List Char))
    (clause_a clause_b : List Char) (threshold : ℝ) : PipelineResult :=
  if pipelinePreprocess clause_a = pipelinePreprocess clause_b then
    ⟨true, 1, PipelineReason.exactMatch⟩
  else if remove_punctuation (pipelinePreprocess clause_a)
      = remove_punctuation (pipelinePreprocess clause_b) then
    ⟨true, 99/100, PipelineReason.punctuationOnly⟩
  else if threshold ≤ pipelineWeightedSim encode py (pipelinePreprocess clause_a)
      (pipelinePreprocess clause_b) then
    ⟨true, pipelineWeightedSim encode py (pipelinePreprocess clause_a)
        (pipelinePreprocess clause_b),
     PipelineReason.weightedScore true (pipelineWeightedSim encode py
        (pipelinePreprocess clause_a) (pipelinePreprocess clause_b))⟩
  else
    ⟨false, pipelineWeightedSim encode py (pipelinePreprocess clause_a)
        (pipelinePreprocess clause_b),
     PipelineReason.weightedScore false (pipelineWeightedSim encode py
        (pipelinePreprocess clause_a) (pipelinePreprocess clause_b))⟩

/-- The Jaccard similarity of `simple_sim.py` lines 49-52:
`len(set1 & set2) / len(set1 | set2)` over the two token sets, with `none`
modelling the `ZeroDivisionError` raised when both token sets are empty
(the denominator is then `0`). -/
def jaccard_similarity (cut : List Char → List (List Char))
    (text1 text2 : List Char) : Option ℚ :=
  let s1 := (cut text1 : Multiset (List Char)).toFinset
  let s2 := (cut text2 : Multiset (List Char)).toFinset
  if (s1 ∪ s2).card = 0 then none
  else some (((s1 ∩ s2).card : ℚ) / ((s1 ∪ s2).card : ℚ))

/-- Concrete segmenter instance used to evaluate the theorems on concrete
inputs: the whole text as one token. -/
def cutDemo : List Char → List (List Char) := fun t => [t]

/-- Concrete segmenter instance that yields no tokens on empty input, as
`jieba.cut` does. -/
def cutDemo2 : List Char → List (List Char) := fun t => if t = [] then [] else [t]

/-- Concrete romanizer instance used to evaluate the theorems on concrete
inputs: `m` and `l` become the two-letter syllables `ma` and `la`, every
other character is kept as a one-character token, one token per character
as `lazy_pinyin` produces. -/
def pyDemo : List Char → List (List Char) :=
  fun t => t.map (fun c =>
    if c = 'm' then ['m', 'a'] else if c = 'l' then ['l', 'a'] else [c])

/-- Concrete embedder instance: a constant one-dimensional vector. -/
def encodeDemo : List Char → List ℚ := fun _ => [1]

/-- Concrete embedder instance sending the text `a` and every other text to
opposite one-dimensional unit vectors, so that their cosine similarity is
`-1`. -/
def encodeNeg : List Char → List ℚ := fun t => if t = ['a'] then [1] else [-1]

section PreprocessLemmas

/-- Replacing each element by itself or by nothing, guarded by `p`, is a
filter. -/
lemma flatMap_guard_eq_filter {α : Type} (p : α → Bool) (l : List α) :
    l.flatMap (fun c => if p c then [] else [c]) = l.filter (fun c => !p c) := by
  induction l with
  | nil => rfl
  | cons a l ih =>
    by_cases h : p a <;> simp [h, ih, List.filter_cons]

/-- Dropping a `p`-satisfying prefix does not change the `p`-rejecting
elements. -/
lemma filter_dropWhile {α : Type} (p : α → Bool) (l : List α) :
    (l.dropWhile p).filter (fun c => !p c) = l.filter (fun c => !p c) := by
  induction l with
  | nil => rfl
  | cons a l ih =>
    by_cases h : p a
    · simpa [List.dropWhile_cons, h, List.filter_cons] using ih
    · simp [List.dropWhile_cons, h, List.filter_cons]

/-- Stripping leading and trailing whitespace does not change the
non-whitespace characters. -/
lemma filter_pyStrip (l : List Char) :
    (pyStrip l).filter (fun c => !whitespaceChars.contains c)
      = l.filter (fun c => !whitespaceChars.contains c) := by
  unfold pyStrip
  rw [List.filter_reverse, filter_dropWhile, List.filter_reverse,
    filter_dropWhile, List.reverse_reverse]

/-- The pipeline preprocessing is exactly whitespace removal. -/
lemma pipelinePreprocess_eq (t : List Char) :
    pipelinePreprocess t = removeWhitespace t := by
  show removeWhitespace ((pyStrip t).flatMap
      (fun c => if whitespaceChars.contains c then [] else [c]))
    = removeWhitespace t
  rw [flatMap_guard_eq_filter]
  show ((pyStrip t).filter _).filter _ = _
  rw [List.filter_filter]
  simp only [Bool.and_self]
  exact filter_pyStrip t

/-- Origin of an element of a single-character replacement: it was already
present and differs from the pattern, or it comes from the replacement
string. -/
lemma mem_replaceChar {x c : Char} {r l : List Char}
    (h : x ∈ replaceChar c r l) : (x ∈ l ∧ x ≠ c) ∨ x ∈ r := by
  unfold replaceChar at h
  rw [List.mem_flatMap] at h
  obtain ⟨a, ha, hx⟩ := h
  by_cases hac : a = c
  · subst hac
    rw [if_pos rfl] at hx
    exact Or.inr hx
  · rw [if_neg hac] at hx
    rw [List.mem_singleton] at hx
    subst hx
    exact Or.inl ⟨ha, hac⟩

/-- Replacement of an absent character changes nothing. -/
lemma replaceChar_eq_self {c : Char} {r l : List Char} (h : c ∉ l) :
    replaceChar c r l = l := by
  induction l with
  | nil => rfl
  | cons a l ih =>
    have hac : ¬(a = c) := fun hh => h (hh ▸ List.mem_cons_self a l)
    show (if a = c then r else [a]) ++ replaceChar c r l = a :: l
    rw [if_neg hac, ih (fun hh => h (List.mem_cons_of_mem a hh))]
    rfl

/-- The ten characters a numeral replacement string can consist of. -/
def digitChars : List Char :=
  ['0', '1', '2', '3', '4', '5', '6', '7', '8', '9']

/-- Origin of an element of the numeral-replacement fold: either it was
already present and matches none of the processed patterns, or it is a
digit introduced by a replacement. -/
lemma mem_numFold :
    ∀ (ps : List (Char × List Char)) (l : List Char) (x : Char),
      (∀ p ∈ ps, ∀ y ∈ p.2, y ∈ digitChars) →
      x ∈ ps.foldl (fun s p => replaceChar p.1 p.2 s) l →
      (x ∈ l ∧ ∀ p ∈ ps, x ≠ p.1) ∨ x ∈ digitChars := by
  intro ps
  induction ps with
  | nil =>
    intro l x _ hx
    exact Or.inl ⟨hx, by simp⟩
  | cons p ps ih =>
    intro l x hd hx
    rw [List.foldl_cons] at hx
    rcases ih _ x (fun q hq => hd q (List.mem_cons_of_mem _ hq)) hx with
      ⟨hmem, hkeys⟩ | hdig
    · rcases mem_replaceChar hmem with ⟨hl, hne⟩ | hr
      · refine Or.inl ⟨hl, ?_⟩
        intro q hq
        rcases List.mem_cons.mp hq with hq' | hq'
        · rw [hq']; exact hne
        · exact hkeys q hq'
      · exact Or.inr (hd p (List.mem_cons_self _ _) _ hr)
    · exact Or.inr hdig

/-- A replacement fold whose patterns are all absent changes nothing. -/
lemma numFold_eq_self :
    ∀ (ps : List (Char × List Char)) (l : List Char),
      (∀ p ∈ ps, p.1 ∉ l) →
      ps.foldl (fun s p => replaceChar p.1 p.2 s) l = l := by
  intro ps
  induction ps with
  | nil => intro l _; rfl
  | cons p ps ih =>
    intro l h
    rw [List.foldl_cons, replaceChar_eq_self (h p (List.mem_cons_self _ _))]
    exact ih l (fun q hq => h q (List.mem_cons_of_mem _ hq))

end PreprocessLemmas

/-- Characters surviving preprocessing: no whitespace, no numeral-table
key, no full-width parenthesis. -/
lemma preprocess_chars (t : List Char) :
    ∀ x ∈ preprocess t,
      whitespaceChars.contains x = false ∧ (∀ p ∈ number_map, x ≠ p.1)
        ∧ x ≠ '（' ∧ x ≠ '）' := by
  intro x hx
  have hdigit : ∀ y ∈ digitChars, whitespaceChars.contains y = false
      ∧ (∀ p ∈ number_map, y ≠ p.1) ∧ y ≠ '（' ∧ y ≠ '）' := by decide
  unfold preprocess parenNormalize at hx
  rcases mem_replaceChar hx with ⟨hx1, hne2⟩ | hxr
  · rcases mem_replaceChar hx1 with ⟨hx2, hne1⟩ | hxl
    · rcases mem_numFold number_map _ x (by decide) hx2 with ⟨hmem, hkeys⟩ | hdig
      · refine ⟨?_, hkeys, hne1, hne2⟩
        unfold removeWhitespace at hmem
        have := (List.mem_filter.mp hmem).2
        simpa using this
      · exact hdigit x hdig
    · have hx' : x = '(' := List.mem_singleton.mp hxl
      subst hx'
      exact ⟨by decide, by decide, by decide, by decide⟩
  · have hx' : x = ')' := List.mem_singleton.mp hxr
    subst hx'
    exact ⟨by decide, by decide, by decide, by decide⟩

/-- Claim C10: normalization is idempotent: a second pass of `preprocess`
over its own output changes nothing, because the output holds no
whitespace, no character of the numeral table and no full-width
parenthesis. -/
theorem claimC10 (t : List Char) : preprocess (preprocess t) = preprocess t := by
  have hc := preprocess_chars t
  have h1 : removeWhitespace (preprocess t) = preprocess t := by
    unfold removeWhitespace
    rw [List.filter_eq_self]
    intro a ha
    rw [(hc a ha).1]
    rfl
  have h2 : numberNormalize (preprocess t) = preprocess t := by
    unfold numberNormalize
    apply numFold_eq_self
    intro p hp hmem
    exact (hc p.1 hmem).2.1 p hp rfl
  have h3 : replaceChar '（' ['('] (preprocess t) = preprocess t :=
    replaceChar_eq_self (fun hmem => (hc '（' hmem).2.2.1 rfl)
  have h4 : replaceChar '）' [')'] (preprocess t) = preprocess t :=
    replaceChar_eq_self (fun hmem => (hc '）' hmem).2.2.2 rfl)
  show parenNormalize (numberNormalize (removeWhitespace (preprocess t)))
    = preprocess t
  rw [h1, h2]
  unfold parenNormalize
  rw [h3, h4]

/-- Claim C3 counterexample: the claim covers both cited normalizers, but
the pipeline variant performs no numeral substitution: on the input
`三十` it returns the input unchanged instead of the claimed `310` (which
the lightweight variant does produce). -/
theorem claimC3_counterexample :
    preprocess ['三', '十'] = ['3', '1', '0']
    ∧ pipelinePreprocess ['三', '十'] ≠ ['3', '1', '0'] := by decide

/-- Claim C3 as amended: the lightweight normalizer performs exactly the
three steps in order — whitespace removal, literal character-wise
numeral-table substitution (so `三十` becomes `310`), full-width
parenthesis normalization — and never fails; the pipeline variant's
normalizer instead performs only whitespace removal. -/
theorem claimC3_amended :
    (∀ t : List Char,
      preprocess t = parenNormalize (numberNormalize (removeWhitespace t)))
    ∧ preprocess ['三', '十'] = ['3', '1', '0']
    ∧ (∀ t : List Char, pipelinePreprocess t = removeWhitespace t) :=
  ⟨fun _ => rfl, by decide, pipelinePreprocess_eq⟩

/-- Claim C1: both comparators short-circuit in stages: equal normalized
texts give verdict `true`, score `1.0`, reason `Exact` with no signal
computed; otherwise equal punctuation-stripped normalized texts give
verdict `true`, score `0.99`, reason `PunctuationOnly` with no signal
computed; otherwise the result carries the weighted-stage outcome. -/
theorem claimC1 (cut py : List Char → List (List Char))
    (encode : List Char → List ℚ) (θ : ℚ) (θr : ℝ) (a b : List Char) :
    (preprocess a = preprocess b →
      is_consistent cut py a b θ = ⟨true, 1, Reason.exactMatch⟩)
    ∧ (preprocess a ≠ preprocess b →
      remove_punctuation (preprocess a) = remove_punctuation (preprocess b) →
      is_consistent cut py a b θ = ⟨true, 99/100, Reason.punctuationOnly⟩)
    ∧ (preprocess a ≠ preprocess b →
      remove_punctuation (preprocess a) ≠ remove_punctuation (preprocess b) →
      (is_consistent cut py a b θ).reason = Reason.weightedDetails
        (get_words_similarity cut (remove_punctuation (preprocess a))
          (remove_punctuation (preprocess b)))
        (get_char_similarity (remove_punctuation (preprocess a))
          (remove_punctuation (preprocess b)))
        (get_pinyin_similarity py (remove_punctuation (preprocess a))
          (remove_punctuation (preprocess b))))
    ∧ (pipelinePreprocess a = pipelinePreprocess b →
      pipeline_is_consistent encode py a b θr = ⟨true, 1, PipelineReason.exactMatch⟩)
    ∧ (pipelinePreprocess a ≠ pipelinePreprocess b →
      remove_punctuation (pipelinePreprocess a)
        = remove_punctuation (pipelinePreprocess b) →
      pipeline_is_consistent encode py a b θr
        = ⟨true, 99/100, PipelineReason.punctuationOnly⟩)
    ∧ (pipelinePreprocess a ≠ pipelinePreprocess b →
      remove_punctuation (pipelinePreprocess a)
        ≠ remove_punctuation (pipelinePreprocess b) →
      (pipeline_is_consistent encode py a b θr).score
        = pipelineWeightedSim encode py (pipelinePreprocess a)
            (pipelinePreprocess b)) := by
  refine ⟨?_, ?_, ?_, ?_, ?_, ?_⟩
  · intro h; simp [is_consistent, h]
  · intro h1 h2; simp [is_consistent, h1, h2]
  · intro h1 h2; simp [is_consistent, h1, h2]
  · intro h; simp [pipeline_is_consistent, h]
  · intro h1 h2; simp [pipeline_is_consistent, h1, h2]
  · intro h1 h2
    by_cases h3 : θr ≤ pipelineWeightedSim encode py (pipelinePreprocess a)
        (pipelinePreprocess b)
    · simp [pipeline_is_consistent, h1, h2, h3]
    · simp [pipeline_is_consistent, h1, h2, h3]

/-- Witness for claim C1 at concrete inputs: a whitespace-only difference
triggers the exact stage and a punctuation-only difference triggers the
0.99 stage, in both comparators. -/
theorem claimC1_witness :
    is_consistent cutDemo pyDemo ['a'] ['a', ' '] (9/10)
      = ⟨true, 1, Reason.exactMatch⟩
    ∧ is_consistent cutDemo pyDemo ['a', '，'] ['a'] (9/10)
      = ⟨true, 99/100, Reason.punctuationOnly⟩
    ∧ pipeline_is_consistent encodeDemo pyDemo ['a'] ['a', ' '] (9/10)
      = ⟨true, 1, PipelineReason.exactMatch⟩
    ∧ pipeline_is_consistent encodeDemo pyDemo ['a', '，'] ['a'] (9/10)
      = ⟨true, 99/100, PipelineReason.punctuationOnly⟩ :=
  ⟨(claimC1 cutDemo pyDemo encodeDemo (9/10) (9/10) ['a'] ['a', ' ']).1
      (by decide),
   (claimC1 cutDemo pyDemo encodeDemo (9/10) (9/10) ['a', '，'] ['a']).2.1
      (by decide) (by decide),
   (claimC1 cutDemo pyDemo encodeDemo (9/10) (9/10) ['a'] ['a', ' ']).2.2.2.1
      (by decide),
   (claimC1 cutDemo pyDemo encodeDemo (9/10) (9/10) ['a', '，'] ['a']).2.2.2.2.1
      (by decide) (by decide)⟩

/-- Claim C2: past the two exact-match gates, the lightweight fused score
is `0.5` times the word-bag score plus `0.3` times the character-sequence
score plus `0.2` times the phonetic score, and the verdict is `true`
exactly when this score reaches the threshold. -/
theorem claimC2 (cut py : List Char → List (List Char)) (θ : ℚ)
    (a b : List Char)
    (h1 : preprocess a ≠ preprocess b)
    (h2 : remove_punctuation (preprocess a) ≠ remove_punctuation (preprocess b)) :
    (is_consistent cut py a b θ).score =
      get_words_similarity cut (remove_punctuation (preprocess a))
          (remove_punctuation (preprocess b)) * (1/2)
        + get_char_similarity (remove_punctuation (preprocess a))
            (remove_punctuation (preprocess b)) * (3/10)
        + get_pinyin_similarity py (remove_punctuation (preprocess a))
            (remove_punctuation (preprocess b)) * (1/5)
    ∧ ((is_consistent cut py a b θ).verdict = true
        ↔ θ ≤ (is_consistent cut py a b θ).score) := by
  constructor
  · simp [is_consistent, h1, h2, weightedSim]
  · simp [is_consistent, h1, h2, weightedSim]

/-- Witness for claim C2 at the concrete pair `a`, `b` with threshold
`0.9`. -/
theorem claimC2_witness :
    (is_consistent cutDemo pyDemo ['a'] ['b'] (9/10)).score =
      get_words_similarity cutDemo (remove_punctuation (preprocess ['a']))
          (remove_punctuation (preprocess ['b'])) * (1/2)
        + get_char_similarity (remove_punctuation (preprocess ['a']))
            (remove_punctuation (preprocess ['b'])) * (3/10)
        + get_pinyin_similarity pyDemo (remove_punctuation (preprocess ['a']))
            (remove_punctuation (preprocess ['b'])) * (1/5)
    ∧ ((is_consistent cutDemo pyDemo ['a'] ['b'] (9/10)).verdict = true
        ↔ (9/10 : ℚ) ≤ (is_consistent cutDemo pyDemo ['a'] ['b'] (9/10)).score) :=
  claimC2 cutDemo pyDemo (9/10) ['a'] ['b'] (by decide) (by decide)

section WordBag

/-- Characterization of the word-bag score: the sum over common tokens of
the smaller count is the size of the multiset intersection of the two token
bags, so the score is that size divided by the larger bag, also when no
token is shared. -/
lemma get_words_similarity_eq (cut : List Char → List (List Char))
    (t1 t2 : List Char) :
    get_words_similarity cut t1 t2 =
      ((Multiset.card
        (((cut t1).filter (fun w => !stopwords.contains w) : Multiset (List Char))
          ∩ ((cut t2).filter (fun w => !stopwords.contains w) : Multiset (List Char))) : ℕ) : ℚ)
      / ((max ((cut t1).filter (fun w => !stopwords.contains w)).length
            ((cut t2).filter (fun w => !stopwords.contains w)).length : ℕ) : ℚ) := by
  unfold get_words_similarity
  simp only []
  set m1 : Multiset (List Char) :=
    ((cut t1).filter (fun w => !stopwords.contains w) : Multiset (List Char)) with hm1
  set m2 : Multiset (List Char) :=
    ((cut t2).filter (fun w => !stopwords.contains w) : Multiset (List Char)) with hm2
  by_cases h : m1.toFinset ∩ m2.toFinset = ∅
  · rw [if_pos h]
    have h0 : m1 ∩ m2 = 0 := by
      rw [← Multiset.toFinset_eq_empty, Multiset.toFinset_inter]
      exact h
    rw [h0]
    simp
  · rw [if_neg h]
    have hnum : (∑ w in m1.toFinset ∩ m2.toFinset,
        min (m1.count w) (m2.count w)) = Multiset.card (m1 ∩ m2) := by
      rw [← Multiset.toFinset_sum_count_eq (m1 ∩ m2), Multiset.toFinset_inter]
      exact Finset.sum_congr rfl (fun w _ => (Multiset.count_inter w m1 m2).symm)
    rw [hnum]

lemma get_words_similarity_nonneg (cut : List Char → List (List Char))
    (t1 t2 : List Char) : 0 ≤ get_words_similarity cut t1 t2 := by
  rw [get_words_similarity_eq]
  positivity

lemma get_words_similarity_le_one (cut : List Char → List (List Char))
    (t1 t2 : List Char) : get_words_similarity cut t1 t2 ≤ 1 := by
  rw [get_words_similarity_eq]
  set w1 := (cut t1).filter (fun w => !stopwords.contains w) with hw1
  set w2 := (cut t2).filter (fun w => !stopwords.contains w) with hw2
  have hcard : Multiset.card ((w1 : Multiset (List Char)) ∩ (w2 : Multiset (List Char)))
      ≤ max w1.length w2.length := by
    calc Multiset.card ((w1 : Multiset (List Char)) ∩ (w2 : Multiset (List Char)))
        ≤ Multiset.card (w1 : Multiset (List Char)) :=
          Multiset.card_le_card (Multiset.inter_le_left _ _)
      _ = w1.length := Multiset.coe_card w1
      _ ≤ max w1.length w2.length := le_max_left _ _
  rcases Nat.eq_zero_or_pos (max w1.length w2.length) with h | h
  · rw [h]
    norm_num
  · rw [div_le_one (by exact_mod_cast h)]
    exact_mod_cast hcard

end WordBag

/-- Claim C4: the word-bag signal tokenizes both stripped texts, discards
stopwords and counts token frequencies; with no common token the score is
`0.0`, and in general the sum over common tokens of the smaller count
(which is the size of the multiset intersection of the two token bags)
is divided by the larger total token count. -/
theorem claimC4 (cut : List Char → List (List Char)) (t1 t2 : List Char) :
    (((cut t1).filter (fun w => !stopwords.contains w) : Multiset (List Char)).toFinset
        ∩ ((cut t2).filter (fun w => !stopwords.contains w) : Multiset (List Char)).toFinset = ∅ →
      get_words_similarity cut t1 t2 = 0)
    ∧ get_words_similarity cut t1 t2 =
        ((Multiset.card
          (((cut t1).filter (fun w => !stopwords.contains w) : Multiset (List Char))
            ∩ ((cut t2).filter (fun w => !stopwords.contains w) : Multiset (List Char))) : ℕ) : ℚ)
        / ((max ((cut t1).filter (fun w => !stopwords.contains w)).length
              ((cut t2).filter (fun w => !stopwords.contains w)).length : ℕ) : ℚ) := by
  constructor
  · intro h
    unfold get_words_similarity
    simp only []
    rw [if_pos h]
  · exact get_words_similarity_eq cut t1 t2

/-- Witness for claim C4: two single-token texts sharing no token score
`0.0`. -/
theorem claimC4_witness : get_words_similarity cutDemo ['a'] ['b'] = 0 :=
  (claimC4 cutDemo ['a'] ['b']).1 (by decide)

/-- Claim C6 counterexample: the character-sequence signal is not
symmetric: on the pair `ab`, `bacb` the matching-block algorithm finds two
matched characters in one direction but only one in the other, giving
ratios `2/3` and `1/3`. -/
theorem claimC6_counterexample :
    get_char_similarity ['a', 'b'] ['b', 'a', 'c', 'b']
      ≠ get_char_similarity ['b', 'a', 'c', 'b'] ['a', 'b'] := by
  have h1 : matchingSize ['a', 'b'] ['b', 'a', 'c', 'b'] = 2 := by decide
  have h2 : matchingSize ['b', 'a', 'c', 'b'] ['a', 'b'] = 1 := by decide
  simp only [get_char_similarity, ratioScore, h1, h2]
  norm_num

/-- Claim C6 as amended: the word-bag signal is symmetric in its two
arguments, and the two exact-match stages are symmetric: whenever a
comparison ends with reason `Exact` or `PunctuationOnly`, the swapped
comparison returns the identical result.  The two sequence-ratio signals
(character and phonetic) are not symmetric in general, so the weighted
stage need not be. -/
theorem claimC6_amended (cut py : List Char → List (List Char)) (θ : ℚ)
    (t1 t2 a b : List Char) :
    get_words_similarity cut t1 t2 = get_words_similarity cut t2 t1
    ∧ ((is_consistent cut py a b θ).reason = Reason.exactMatch →
        is_consistent cut py b a θ = is_consistent cut py a b θ)
    ∧ ((is_consistent cut py a b θ).reason = Reason.punctuationOnly →
        is_consistent cut py b a θ = is_consistent cut py a b θ) := by
  refine ⟨?_, ?_, ?_⟩
  · rw [get_words_similarity_eq, get_words_similarity_eq,
      Multiset.inter_comm, Nat.max_comm]
  · intro h
    by_cases hc : preprocess a = preprocess b
    · have hc' : preprocess b = preprocess a := hc.symm
      unfold is_consistent
      rw [if_pos hc, if_pos hc']
    · exfalso
      by_cases hs : remove_punctuation (preprocess a)
          = remove_punctuation (preprocess b)
      · unfold is_consistent at h
        rw [if_neg hc, if_pos hs] at h
        exact Reason.noConfusion h
      · unfold is_consistent at h
        rw [if_neg hc, if_neg hs] at h
        exact Reason.noConfusion h
  · intro h
    by_cases hc : preprocess a = preprocess b
    · exfalso
      unfold is_consistent at h
      rw [if_pos hc] at h
      exact Reason.noConfusion h
    · by_cases hs : remove_punctuation (preprocess a)
          = remove_punctuation (preprocess b)
      · have hc' : ¬(preprocess b = preprocess a) := fun hh => hc hh.symm
        unfold is_consistent
        rw [if_neg hc, if_pos hs, if_neg hc', if_pos hs.symm]
      · exfalso
        unfold is_consistent at h
        rw [if_neg hc, if_neg hs] at h
        exact Reason.noConfusion h

/-- Witness for claim C6 as amended: word-bag symmetry at a concrete pair,
and a punctuation-only pair whose swapped comparison returns the identical
result. -/
theorem claimC6_witness :
    get_words_similarity cutDemo ['a'] ['b'] = get_words_similarity cutDemo ['b'] ['a']
    ∧ is_consistent cutDemo pyDemo ['a'] ['a', '。'] (9/10)
        = is_consistent cutDemo pyDemo ['a', '。'] ['a'] (9/10) :=
  ⟨(claimC6_amended cutDemo pyDemo (9/10) ['a'] ['b'] ['a'] ['b']).1,
   (claimC6_amended cutDemo pyDemo (9/10) ['a'] ['b'] ['a', '。'] ['a']).2.2
      (by decide)⟩

section PinyinValues

lemma pyDemo_light_val : get_pinyin_similarity pyDemo ['m', 'm'] ['m', 'l'] = 1/2 := by
  have h : matchingSize (pyDemo ['m', 'm']) (pyDemo ['m', 'l']) = 1 := by decide
  have hl1 : (pyDemo ['m', 'm']).length = 2 := by decide
  have hl2 : (pyDemo ['m', 'l']).length = 2 := by decide
  simp only [get_pinyin_similarity, ratioScore, h, hl1, hl2]
  norm_num

lemma pyDemo_pipeline_val :
    pipeline_get_pinyin_similarity pyDemo ['m', 'm'] ['m', 'l'] = 4/5 := by
  have h : matchingSize (joinSpace (pyDemo ['m', 'm']))
      (joinSpace (pyDemo ['m', 'l'])) = 4 := by decide
  have hl1 : (joinSpace (pyDemo ['m', 'm'])).length = 5 := by decide
  have hl2 : (joinSpace (pyDemo ['m', 'l'])).length = 5 := by decide
  simp only [pipeline_get_pinyin_similarity, ratioScore, h, hl1, hl2]
  norm_num

end PinyinValues

/-- Claim C9 counterexample: the two phonetic scorers disagree: with a
romanizer sending `m` to `ma` and `l` to `la`, the lightweight scorer
(atomic syllable tokens) gives `1/2` on the pair `mm`, `ml`, while the
pipeline scorer (characters of the space-joined romanization) gives
`4/5`. -/
theorem claimC9_counterexample :
    get_pinyin_similarity pyDemo ['m', 'm'] ['m', 'l']
      ≠ pipeline_get_pinyin_similarity pyDemo ['m', 'm'] ['m', 'l'] := by
  rw [pyDemo_light_val, pyDemo_pipeline_val]
  norm_num

/-- Claim C9 as amended: the lightweight variant's phonetic scorer is the
matching-block ratio over the two syllable-token sequences with each
syllable atomic, but the pipeline variant applies the matching-block ratio
to the space-joined romanization character by character, and the two can
return different values (`1/2` against `4/5` on a concrete pair). -/
theorem claimC9_amended (py : List Char → List (List Char)) (t1 t2 : List Char) :
    get_pinyin_similarity py t1 t2 = ratioScore (py t1) (py t2)
    ∧ pipeline_get_pinyin_similarity py t1 t2
        = ratioScore (joinSpace (py t1)) (joinSpace (py t2))
    ∧ get_pinyin_similarity pyDemo ['m', 'm'] ['m', 'l'] = 1/2
    ∧ pipeline_get_pinyin_similarity pyDemo ['m', 'm'] ['m', 'l'] = 4/5 :=
  ⟨rfl, rfl, pyDemo_light_val, pyDemo_pipeline_val⟩

/-- Claim C8 counterexample: the clauses `a（` and `a` are distinct and
differ only by the full-width parenthesis, a character of the configured
punctuation set; but preprocessing rewrites `（` to the half-width `(`,
which is not in the punctuation set, so the comparison falls through to the
weighted stage instead of returning the claimed
`(true, 0.99, PunctuationOnly)`. -/
theorem claimC8_counterexample :
    (['a', '（'] ≠ ['a']
      ∧ remove_punctuation ['a', '（'] = remove_punctuation ['a'])
    ∧ is_consistent cutDemo pyDemo ['a', '（'] ['a'] (9/10)
        ≠ ⟨true, 99/100, Reason.punctuationOnly⟩ := by
  refine ⟨by decide, ?_⟩
  intro h
  have hr : (is_consistent cutDemo pyDemo ['a', '（'] ['a'] (9/10)).reason
      ≠ Reason.punctuationOnly := by decide
  exact hr (congrArg CompareResult.reason h)

/-- Claim C8 as amended: whenever the two normalized clauses are distinct
but their punctuation-stripped normalized forms coincide, the comparison
returns verdict `true`, score exactly `0.99`, and reason
`PunctuationOnly`.  (Stating the invariance after normalization is forced:
normalization itself rewrites the full-width parentheses of the
punctuation set to half-width ones and deletes whitespace, so two raw
clauses differing only by punctuation characters can be normalized to
texts that are identical or that differ beyond punctuation.) -/
theorem claimC8_amended (cut py : List Char → List (List Char)) (θ : ℚ)
    (X Y : List Char)
    (h1 : preprocess X ≠ preprocess Y)
    (h2 : remove_punctuation (preprocess X) = remove_punctuation (preprocess Y)) :
    is_consistent cut py X Y θ = ⟨true, 99/100, Reason.punctuationOnly⟩ := by
  unfold is_consistent
  rw [if_neg h1, if_pos h2]

/-- Witness for claim C8 as amended at a concrete pair differing by an
ideographic full stop. -/
theorem claimC8_witness :
    is_consistent cutDemo pyDemo ['b', '。'] ['b'] (9/10)
      = ⟨true, 99/100, Reason.punctuationOnly⟩ :=
  claimC8_amended cutDemo pyDemo (9/10) ['b', '。'] ['b'] (by decide) (by decide)

/-- Claim C5: in `simple_sim.py` the Jaccard expression
`len(set1 & set2) / len(set1 | set2)` is evaluated with no guard, so two
texts whose token sets are both empty raise `ZeroDivisionError`
(modelled as `none`) instead of the claimed `1.0`; when exactly one side
is empty the division is defined and gives `0.0` as claimed. -/
theorem claimC5 (cut : List Char → List (List Char)) (h : cut [] = []) :
    jaccard_similarity cut [] [] = none
    ∧ (∀ t1 t2 : List Char, cut t1 = [] → cut t2 ≠ [] →
        jaccard_similarity cut t1 t2 = some 0) := by
  constructor
  · unfold jaccard_similarity
    rw [h]
    rfl
  · intro t1 t2 h1 h2
    unfold jaccard_similarity
    rw [h1]
    obtain ⟨x, hx⟩ := List.exists_mem_of_ne_nil _ h2
    have hs1 : ((([] : List (List Char)) : Multiset (List Char))).toFinset = ∅ := rfl
    dsimp only
    rw [hs1, Finset.empty_union, Finset.empty_inter]
    have hpos : 0 < (cut t2 : Multiset (List Char)).toFinset.card := by
      rw [Finset.card_pos]
      exact ⟨x, by rw [Multiset.mem_toFinset, Multiset.mem_coe]; exact hx⟩
    rw [if_neg (by omega)]
    simp

/-- Witness for claim C5 with a segmenter that, as `jieba.cut`, yields no
tokens on the empty text. -/
theorem claimC5_witness :
    jaccard_similarity cutDemo2 [] [] = none
    ∧ jaccard_similarity cutDemo2 [] ['a'] = some 0 :=
  ⟨(claimC5 cutDemo2 (by decide)).1,
   (claimC5 cutDemo2 (by decide)).2 [] ['a'] (by decide) (by decide)⟩

/-- Claim C7 counterexample: the semantic-mode fused score is not confined
to `[0, 1]`: with embeddings `[1]` and `[-1]` the cosine similarity is
`-1`, and on a pair of single-character clauses with no character or
phonetic overlap the weighted stage returns the negative score `-1/2`. -/
theorem claimC7_counterexample :
    (pipeline_is_consistent encodeNeg pyDemo ['a'] ['b'] (9/10)).score < 0 := by
  have hp1 : pipelinePreprocess ['a'] = ['a'] := by decide
  have hp2 : pipelinePreprocess ['b'] = ['b'] := by decide
  have h1 : pipelinePreprocess ['a'] ≠ pipelinePreprocess ['b'] := by decide
  have h2 : remove_punctuation (pipelinePreprocess ['a'])
      ≠ remove_punctuation (pipelinePreprocess ['b']) := by decide
  have e1 : encodeNeg ['a'] = [1] := rfl
  have e2 : encodeNeg ['b'] = [-1] := rfl
  have d1 : dotProd [1] [-1] = -1 := by norm_num [dotProd]
  have d2 : dotProd [(1 : ℚ)] [1] = 1 := by norm_num [dotProd]
  have d3 : dotProd [(-1 : ℚ)] [-1] = 1 := by norm_num [dotProd]
  have hsem : get_semantic_similarity encodeNeg (pipelinePreprocess ['a'])
      (pipelinePreprocess ['b']) = -1 := by
    rw [hp1, hp2]
    unfold get_semantic_similarity
    rw [e1, e2]
    unfold cosineSimilarity
    rw [d1, d2, d3]
    push_cast
    rw [Real.sqrt_one]
    norm_num
  have hchar : get_char_similarity (remove_punctuation (pipelinePreprocess ['a']))
      (remove_punctuation (pipelinePreprocess ['b'])) = 0 := by
    have hm : matchingSize (remove_punctuation (pipelinePreprocess ['a']))
        (remove_punctuation (pipelinePreprocess ['b'])) = 0 := by decide
    have hl1 : (remove_punctuation (pipelinePreprocess ['a'])).length = 1 := by decide
    have hl2 : (remove_punctuation (pipelinePreprocess ['b'])).length = 1 := by decide
    simp only [get_char_similarity, ratioScore, hm, hl1, hl2]
    norm_num
  have hpin : pipeline_get_pinyin_similarity pyDemo
      (remove_punctuation (pipelinePreprocess ['a']))
      (remove_punctuation (pipelinePreprocess ['b'])) = 0 := by
    have hm : matchingSize
        (joinSpace (pyDemo (remove_punctuation (pipelinePreprocess ['a']))))
        (joinSpace (pyDemo (remove_punctuation (pipelinePreprocess ['b'])))) = 0 := by
      decide
    have hl1 : (joinSpace (pyDemo (remove_punctuation
        (pipelinePreprocess ['a'])))).length = 1 := by decide
    have hl2 : (joinSpace (pyDemo (remove_punctuation
        (pipelinePreprocess ['b'])))).length = 1 := by decide
    simp only [pipeline_get_pinyin_similarity, ratioScore, hm, hl1, hl2]
    norm_num
  have hw : pipelineWeightedSim encodeNeg pyDemo (pipelinePreprocess ['a'])
      (pipelinePreprocess ['b']) = -(1/2) := by
    unfold pipelineWeightedSim
    rw [hsem, hchar, hpin]
    push_cast
    norm_num
  have hsc : (pipeline_is_consistent encodeNeg pyDemo ['a'] ['b'] (9/10)).score
      = pipelineWeightedSim encodeNeg pyDemo (pipelinePreprocess ['a'])
          (pipelinePreprocess ['b']) := by
    unfold pipeline_is_consistent
    rw [if_neg h1, if_neg h2]
    by_cases h3 : (9/10 : ℝ) ≤ pipelineWeightedSim encodeNeg pyDemo
        (pipelinePreprocess ['a']) (pipelinePreprocess ['b'])
    · rw [if_pos h3]
    · rw [if_neg h3]
  rw [hsc, hw]
  norm_num

/-- Claim C7 as amended: every lightweight signal value (word-bag,
character-sequence, phonetic) and the lightweight comparator's returned
score lie in `[0, 1]` for all inputs; the claim's extension to the
semantic-mode fused score fails because the embedding cosine can be
negative. -/
theorem claimC7_amended (cut py : List Char → List (List Char)) (θ : ℚ)
    (t1 t2 a b : List Char) :
    (0 ≤ get_words_similarity cut t1 t2 ∧ get_words_similarity cut t1 t2 ≤ 1)
    ∧ (0 ≤ get_char_similarity t1 t2 ∧ get_char_similarity t1 t2 ≤ 1)
    ∧ (0 ≤ get_pinyin_similarity py t1 t2 ∧ get_pinyin_similarity py t1 t2 ≤ 1)
    ∧ (0 ≤ (is_consistent cut py a b θ).score
        ∧ (is_consistent cut py a b θ).score ≤ 1) := by
  refine ⟨⟨get_words_similarity_nonneg cut t1 t2, get_words_similarity_le_one cut t1 t2⟩,
    ⟨ratioScore_nonneg t1 t2, ratioScore_le_one t1 t2⟩,
    ⟨ratioScore_nonneg (py t1) (py t2), ratioScore_le_one (py t1) (py t2)⟩, ?_⟩
  by_cases hc : preprocess a = preprocess b
  · unfold is_consistent
    rw [if_pos hc]
    constructor <;> norm_num
  · by_cases hs : remove_punctuation (preprocess a)
        = remove_punctuation (preprocess b)
    · unfold is_consistent
      rw [if_neg hc, if_pos hs]
      constructor <;> norm_num
    · have hw1 := get_words_similarity_nonneg cut
        (remove_punctuation (preprocess a)) (remove_punctuation (preprocess b))
      have hw2 := get_words_similarity_le_one cut
        (remove_punctuation (preprocess a)) (remove_punctuation (preprocess b))
      have hc1 : 0 ≤ get_char_similarity (remove_punctuation (preprocess a))
          (remove_punctuation (preprocess b)) := ratioScore_nonneg _ _
      have hc2 : get_char_similarity (remove_punctuation (preprocess a))
          (remove_punctuation (preprocess b)) ≤ 1 := ratioScore_le_one _ _
      have hq1 : 0 ≤ get_pinyin_similarity py (remove_punctuation (preprocess a))
          (remove_punctuation (preprocess b)) := ratioScore_nonneg _ _
      have hq2 : get_pinyin_similarity py (remove_punctuation (preprocess a))
          (remove_punctuation (preprocess b)) ≤ 1 := ratioScore_le_one _ _
      unfold is_consistent
      rw [if_neg hc, if_neg hs]
      dsimp only
      unfold weightedSim
      constructor
      · linarith
      · linarith

end ItemCompator
